import Mathlib

/-
  Verification of the Governance Validity Predicate (GovVP) of
  src/shared/src/ledger/governance/mod.rs.

  Modelling conventions:
  - Machine integers (u64, usize, token Amount in micro units) are Nat with
    explicit bounds where decoding guarantees them.  Rust integer overflow and
    underflow are program errors; checked arithmetic is used, and an arithmetic
    fault (or any other panic, such as unwrap of an Err) is modelled as none.
  - Fallible storage reads return Except; the Rust .ok() adapter is okOpt.
  - The submodules gov_storage (self::storage) and token_storage are not part
    of the sources; their key constructors and predicates are modelled from the
    key-space conventions of the specification, each marked in its comment.
-/

/-- Addresses: the governance internal address, the token ledger, the native
currency (xan, called m1t in the source), and opaque user accounts. -/
inductive Address where
  | gov : Address
  | tokenLedger : Address
  | xan : Address
  | user : Nat → Address
deriving DecidableEq

/-- A storage key segment: either an address or a UTF-8 string. -/
inductive DbKeySeg where
  | AddressSeg : Address → DbKeySeg
  | StringSeg : String → DbKeySeg
deriving DecidableEq

/-- A storage key: an ordered sequence of segments. -/
structure Key where
  segments : List DbKeySeg
deriving DecidableEq

/-- The governance internal address constant (ADDRESS in the source). -/
def ADDRESS : Address := Address.gov

/-- The native currency address (m1t / xan in the source). -/
def m1t : Address := Address.xan

/-- Rust Result::ok adapter: drop the error, keep the success value. -/
def okOpt {e a : Type} : Except e a → Option a
  | Except.ok v => some v
  | Except.error _ => none

/-- Little-endian value of a byte list. -/
def leValue : List Nat → Nat
  | [] => 0
  | b :: rest => b + 256 * leValue rest

/-- Canonical binary deserialisation of a u64: exactly 8 little-endian bytes.
Modelled from the spec: 64-bit unsigned integers use a canonical
little-endian serialisation. -/
def decodeU64 (bs : List Nat) : Option Nat :=
  if bs.length = 8 ∧ ∀ b ∈ bs, b < 256 then some (leValue bs) else none

/-- Token amounts are u64 micro units with the same canonical serialisation.
Modelled from the spec. -/
def decodeAmount (bs : List Nat) : Option Nat := decodeU64 bs

/-- Canonical serialisation of a length-prefixed byte vector: a 4-byte
little-endian length followed by exactly that many bytes.  Modelled from the
spec: proposal code is opaque bytes under canonical binary deserialisation. -/
def decodeVecU8 (bs : List Nat) : Option (List Nat) :=
  if (∀ b ∈ bs, b < 256) ∧ bs.length = 4 + leValue (bs.take 4) then
    some (bs.drop 4)
  else none

/-- Canonical binary deserialisation of an address.  Modelled from the spec:
an address is an opaque handle; the exact byte format is out of scope, so an
injective tag encoding stands in for it. -/
def decodeAddress (bs : List Nat) : Option Address :=
  match bs with
  | [0] => some Address.gov
  | [1] => some Address.tokenLedger
  | [2] => some Address.xan
  | 3 :: rest => (decodeU64 rest).map Address.user
  | _ => none

/-- Little-endian 8-byte encoding of a u64 (used to build concrete stores). -/
def encodeU64 (n : Nat) : List Nat :=
  [n % 256, n / 256 % 256, n / 65536 % 256, n / 16777216 % 256,
   n / 4294967296 % 256, n / 1099511627776 % 256,
   n / 281474976710656 % 256, n / 72057594037927936 % 256]

/-- Accumulating decimal digit parse; fails on a non-digit character. -/
def digitsToNat (acc : Nat) : List Char → Option Nat
  | [] => some acc
  | c :: cs =>
      if c.isDigit then digitsToNat (acc * 10 + (c.toNat - 48)) cs else none

/-- Rust str::parse for u64: optional leading plus sign, at least one digit,
all digits, value within the 64-bit range. -/
def parseU64 (s : String) : Option Nat :=
  let cs := match s.data with
    | '+' :: rest => rest
    | cs => cs
  match cs with
  | [] => none
  | _ =>
      match digitsToNat 0 cs with
      | some v => if v < 2 ^ 64 then some v else none
      | none => none

/-- Counter key GOV / "counter".  Modelled from the spec key-space
conventions (gov_storage::get_counter_key). -/
def get_counter_key : Key :=
  ⟨[DbKeySeg.AddressSeg Address.gov, DbKeySeg.StringSeg "counter"]⟩

/-- Per-proposal field key GOV / "proposal" / id / field.  Modelled from the
spec key-space conventions. -/
def proposal_field_key (id : Nat) (field : String) : Key :=
  ⟨[DbKeySeg.AddressSeg Address.gov, DbKeySeg.StringSeg "proposal",
    DbKeySeg.StringSeg (toString id), DbKeySeg.StringSeg field]⟩

/-- gov_storage::get_content_key, modelled from the spec. -/
def get_content_key (id : Nat) : Key := proposal_field_key id "content"

/-- gov_storage::get_author_key, modelled from the spec. -/
def get_author_key (id : Nat) : Key := proposal_field_key id "author"

/-- gov_storage::get_funds_key, modelled from the spec. -/
def get_funds_key (id : Nat) : Key := proposal_field_key id "funds"

/-- gov_storage::get_proposal_code_key, modelled from the spec. -/
def get_proposal_code_key (id : Nat) : Key :=
  proposal_field_key id "proposal_code"

/-- gov_storage::get_grace_epoch_key, modelled from the spec. -/
def get_grace_epoch_key (id : Nat) : Key :=
  proposal_field_key id "grace_epoch"

/-- gov_storage::get_voting_start_epoch_key, modelled from the spec. -/
def get_voting_start_epoch_key (id : Nat) : Key :=
  proposal_field_key id "start_epoch"

/-- gov_storage::get_voting_end_epoch_key, modelled from the spec. -/
def get_voting_end_epoch_key (id : Nat) : Key :=
  proposal_field_key id "end_epoch"

/-- gov_storage::get_min_proposal_fund_key, modelled from the spec parameter
conventions GOV / param-name. -/
def get_min_proposal_fund_key : Key :=
  ⟨[DbKeySeg.AddressSeg Address.gov, DbKeySeg.StringSeg "min_proposal_fund"]⟩

/-- gov_storage::get_max_proposal_content_key, modelled from the spec. -/
def get_max_proposal_content_key : Key :=
  ⟨[DbKeySeg.AddressSeg Address.gov, DbKeySeg.StringSeg "max_content_length"]⟩

/-- gov_storage::get_max_proposal_code_size_key, modelled from the spec. -/
def get_max_proposal_code_size_key : Key :=
  ⟨[DbKeySeg.AddressSeg Address.gov,
    DbKeySeg.StringSeg "max_proposal_code_size"]⟩

/-- gov_storage::get_min_proposal_period_key, modelled from the spec. -/
def get_min_proposal_period_key : Key :=
  ⟨[DbKeySeg.AddressSeg Address.gov, DbKeySeg.StringSeg "min_proposal_period"]⟩

/-- token_storage::balance_key: TOKEN_LEDGER / "balance" / currency / owner.
Modelled from the spec key-space conventions. -/
def balance_key (token owner : Address) : Key :=
  ⟨[DbKeySeg.AddressSeg Address.tokenLedger, DbKeySeg.StringSeg "balance",
    DbKeySeg.AddressSeg token, DbKeySeg.AddressSeg owner]⟩

/-- Shape test for a per-proposal field key with the given last segment.
Modelled from the spec: governance keys have the form
GOV / "proposal" / id / field, with the id segment left unconstrained so
that keys with an unparseable id still classify into the field category. -/
def is_proposal_field_key (field : String) (k : Key) : Bool :=
  match k.segments with
  | [DbKeySeg.AddressSeg a, DbKeySeg.StringSeg p, _, DbKeySeg.StringSeg f] =>
      decide (a = Address.gov) && decide (p = "proposal") && decide (f = field)
  | _ => false

/-- gov_storage::is_vote_key, modelled from the spec. -/
def is_vote_key (k : Key) : Bool := is_proposal_field_key "vote" k

/-- gov_storage::is_content_key, modelled from the spec. -/
def is_content_key (k : Key) : Bool := is_proposal_field_key "content" k

/-- gov_storage::is_proposal_code_key, modelled from the spec. -/
def is_proposal_code_key (k : Key) : Bool :=
  is_proposal_field_key "proposal_code" k

/-- gov_storage::is_grace_epoch_key, modelled from the spec. -/
def is_grace_epoch_key (k : Key) : Bool :=
  is_proposal_field_key "grace_epoch" k

/-- gov_storage::is_start_epoch_key, modelled from the spec. -/
def is_start_epoch_key (k : Key) : Bool :=
  is_proposal_field_key "start_epoch" k

/-- gov_storage::is_end_epoch_key, modelled from the spec. -/
def is_end_epoch_key (k : Key) : Bool := is_proposal_field_key "end_epoch" k

/-- gov_storage::is_balance_key (the per-proposal funds key), modelled from
the spec. -/
def is_gov_balance_key (k : Key) : Bool := is_proposal_field_key "funds" k

/-- gov_storage::is_author_key, modelled from the spec. -/
def is_author_key (k : Key) : Bool := is_proposal_field_key "author" k

/-- gov_storage::is_counter_key, modelled from the spec. -/
def is_counter_key (k : Key) : Bool := decide (k = get_counter_key)

/-- gov_storage::is_parameter_key, modelled from the spec: one of the four
protocol parameter keys. -/
def is_parameter_key (k : Key) : Bool :=
  decide (k = get_min_proposal_fund_key) ||
  decide (k = get_max_proposal_content_key) ||
  decide (k = get_max_proposal_code_size_key) ||
  decide (k = get_min_proposal_period_key)

/-- token_storage::is_balance_key: returns the owner of a native-currency
balance key of the given token.  Modelled from the spec. -/
def token_is_balance_key (token : Address) (k : Key) : Option Address :=
  match k.segments with
  | [DbKeySeg.AddressSeg t, DbKeySeg.StringSeg b, DbKeySeg.AddressSeg c,
     DbKeySeg.AddressSeg o] =>
      if t = Address.tokenLedger ∧ b = "balance" ∧ c = token then some o
      else none
  | _ => none

/-- The twelve semantic key categories (enum KeyType in the source). -/
inductive KeyType where
  | COUNTER | VOTE | CONTENT | PROPOSAL_CODE | GRACE_EPOCH
  | START_EPOCH | END_EPOCH | FUNDS | BALANCE | AUTHOR | PARAMETER | UNKNOWN
deriving DecidableEq

/-- The key classifier, translated from impl From for KeyType in the
source, with its chain of tests in the source order. -/
def keyTypeFrom (k : Key) : KeyType :=
  if is_vote_key k then KeyType.VOTE
  else if is_content_key k then KeyType.CONTENT
  else if is_proposal_code_key k then KeyType.PROPOSAL_CODE
  else if is_grace_epoch_key k then KeyType.GRACE_EPOCH
  else if is_start_epoch_key k then KeyType.START_EPOCH
  else if is_end_epoch_key k then KeyType.END_EPOCH
  else if is_gov_balance_key k then KeyType.FUNDS
  else if is_author_key k then KeyType.AUTHOR
  else if is_counter_key k then KeyType.COUNTER
  else if is_parameter_key k then KeyType.PARAMETER
  else if (token_is_balance_key m1t k).isSome then KeyType.BALANCE
  else KeyType.UNKNOWN

/-- First-match classifier in the order the specification lists the
categories (COUNTER, VOTE, CONTENT, PROPOSAL_CODE, GRACE_EPOCH, START_EPOCH,
END_EPOCH, FUNDS, BALANCE, AUTHOR, PARAMETER, UNKNOWN).  This definition
follows the words of the specification and is compared with keyTypeFrom. -/
def classifySpecOrder (k : Key) : KeyType :=
  if is_counter_key k then KeyType.COUNTER
  else if is_vote_key k then KeyType.VOTE
  else if is_content_key k then KeyType.CONTENT
  else if is_proposal_code_key k then KeyType.PROPOSAL_CODE
  else if is_grace_epoch_key k then KeyType.GRACE_EPOCH
  else if is_start_epoch_key k then KeyType.START_EPOCH
  else if is_end_epoch_key k then KeyType.END_EPOCH
  else if is_gov_balance_key k then KeyType.FUNDS
  else if (token_is_balance_key m1t k).isSome then KeyType.BALANCE
  else if is_author_key k then KeyType.AUTHOR
  else if is_parameter_key k then KeyType.PARAMETER
  else KeyType.UNKNOWN

/-- get_id from the source: the decimal integer parsed from the segment at
index 2 when that segment is a string; none otherwise. -/
def get_id (k : Key) : Option Nat :=
  match k.segments.get? 2 with
  | some (DbKeySeg.AddressSeg _) => none
  | some (DbKeySeg.StringSeg res) => parseU64 res
  | none => none

/-- The storage context supplied by the host: raw pre/post reads, pre-image
existence, and the current block epoch, each of which may fail with a
storage-layer error (modelled by a Nat error code). -/
structure Ctx where
  read_pre : Key → Except Nat (Option (List Nat))
  read_post : Key → Except Nat (Option (List Nat))
  has_key_pre : Key → Except Nat Bool
  get_block_epoch : Except Nat Nat

/-- The structured errors of the predicate (enum Error in the source). -/
inductive GovError where
  | NativeVpError : Nat → GovError
  | NativeVpDeserializationError : Nat → GovError
  | NativeVpNonExistingKeyError : String → GovError
deriving DecidableEq

/-- Display form of an address, used only inside error payloads. -/
def addrToString : Address → String
  | Address.gov => "gov"
  | Address.tokenLedger => "token"
  | Address.xan => "xan"
  | Address.user n => "user" ++ toString n

/-- Display form of a key segment. -/
def segToString : DbKeySeg → String
  | DbKeySeg.AddressSeg a => addrToString a
  | DbKeySeg.StringSeg s => s

/-- Display form of a key (Key::to_string in the source). -/
def keyToString (k : Key) : String :=
  String.intercalate "/" (k.segments.map segToString)

instance {e a : Type} [DecidableEq e] [DecidableEq a] :
    DecidableEq (Except e a) := fun x y =>
  match x, y with
  | Except.ok u, Except.ok v =>
      if h : u = v then isTrue (h ▸ rfl)
      else isFalse (fun hc => h (Except.ok.inj hc))
  | Except.error u, Except.error v =>
      if h : u = v then isTrue (h ▸ rfl)
      else isFalse (fun hc => h (Except.error.inj hc))
  | Except.ok _, Except.error _ => isFalse (fun hc => Except.noConfusion hc)
  | Except.error _, Except.ok _ => isFalse (fun hc => Except.noConfusion hc)

/-- Pre or post view selector (enum ReadType in the source). -/
inductive ReadType where
  | PRE | POST

/-- The typed reader, translated from fn read in the source: select the view,
then map a missing value to NativeVpNonExistingKeyError, a decode failure to
NativeVpDeserializationError and a storage failure to NativeVpError. -/
def readValue {a : Type} (decode : List Nat → Option a) (ctx : Ctx) (key : Key)
    (read_type : ReadType) : Except GovError a :=
  let storage_result := match read_type with
    | ReadType.PRE => ctx.read_pre key
    | ReadType.POST => ctx.read_post key
  match storage_result with
  | Except.ok (some bytes) =>
      match decode bytes with
      | some v => Except.ok v
      | none => Except.error (GovError.NativeVpDeserializationError 0)
  | Except.ok none =>
      Except.error (GovError.NativeVpNonExistingKeyError (keyToString key))
  | Except.error err => Except.error (GovError.NativeVpError err)

/-- Checked u64 addition: a Rust overflow is an arithmetic fault (none). -/
def addU64 (a b : Nat) : Option Nat :=
  if a + b < 2 ^ 64 then some (a + b) else none

/-- Checked unsigned subtraction of token amounts.  Modelled from the spec:
Amount is a non-negative token amount and its subtraction is unsigned, so a
subtrahend larger than the minuend is an arithmetic fault (none). -/
def amountSub (a b : Nat) : Option Nat :=
  if b ≤ a then some (a - b) else none

/-- Checked remainder: a Rust remainder by zero is an arithmetic fault. -/
def checkedMod (a b : Nat) : Option Nat :=
  if b = 0 then none else some (a % b)

/-- CONTENT rule arm of validate_tx: the post image of the content key is
read with a bare unwrap in the source, so a storage failure there is a
program fault (none); the other reads absorb their failures via ok(). -/
def contentRule (ctx : Ctx) (proposal_id : Nat) : Option Bool :=
  let content_key := get_content_key proposal_id
  let max_content_length :=
    okOpt (readValue decodeU64 ctx get_max_proposal_content_key ReadType.PRE)
  let has_pre_content := okOpt (ctx.has_key_pre content_key)
  match ctx.read_post content_key with
  | Except.error _ => none
  | Except.ok post_content =>
      match has_pre_content, post_content, max_content_length with
      | some hpc, some pc, some mcl => some (!hpc && decide (pc.length < mcl))
      | _, _, _ => some false

/-- PROPOSAL_CODE rule arm of validate_tx. -/
def proposalCodeRule (ctx : Ctx) (proposal_id : Nat) : Option Bool :=
  let proposal_code_key := get_proposal_code_key proposal_id
  let max_proposal_code_size :=
    okOpt (readValue decodeU64 ctx get_max_proposal_code_size_key ReadType.PRE)
  let has_pre_proposal_code := okOpt (ctx.has_key_pre proposal_code_key)
  let post_proposal_code :=
    okOpt (readValue decodeVecU8 ctx proposal_code_key ReadType.POST)
  match has_pre_proposal_code, post_proposal_code, max_proposal_code_size with
  | some hpc, some pc, some mcs => some (!hpc && decide (pc.length < mcs))
  | _, _, _ => some false

/-- GRACE_EPOCH rule arm of validate_tx. -/
def graceEpochRule (ctx : Ctx) (proposal_id : Nat) : Option Bool :=
  let end_epoch_key := get_voting_end_epoch_key proposal_id
  let grace_epoch_key := get_grace_epoch_key proposal_id
  let end_epoch := okOpt (readValue decodeU64 ctx end_epoch_key ReadType.POST)
  let grace_epoch := okOpt (readValue decodeU64 ctx grace_epoch_key ReadType.POST)
  let has_pre_grace_epoch := okOpt (ctx.has_key_pre grace_epoch_key)
  match has_pre_grace_epoch, grace_epoch, end_epoch with
  | some hpg, some g, some e => some (!hpg && decide (e < g))
  | _, _, _ => some false

/-- START_EPOCH and END_EPOCH rule arm of validate_tx.  The early guard in
the source returns false when end is at most start or start is at most the
current epoch; past it, the conjunct chain evaluates the remainder only
after the pre-image tests and the start-before-end test, and a remainder by
zero is a fault. -/
def epochRule (ctx : Ctx) (proposal_id : Nat) : Option Bool :=
  let start_epoch_key := get_voting_start_epoch_key proposal_id
  let end_epoch_key := get_voting_end_epoch_key proposal_id
  let start_epoch := okOpt (readValue decodeU64 ctx start_epoch_key ReadType.POST)
  let end_epoch := okOpt (readValue decodeU64 ctx end_epoch_key ReadType.POST)
  let current_epoch := okOpt ctx.get_block_epoch
  let min_period :=
    okOpt (readValue decodeU64 ctx get_min_proposal_period_key ReadType.PRE)
  let has_pre_start_epoch := okOpt (ctx.has_key_pre start_epoch_key)
  let has_pre_end_epoch := okOpt (ctx.has_key_pre end_epoch_key)
  match has_pre_start_epoch, has_pre_end_epoch, min_period, start_epoch,
      end_epoch, current_epoch with
  | some hps, some hpe, some minp, some s, some e, some c =>
      if e ≤ s ∨ s ≤ c then some false
      else if hps then some false
      else if hpe then some false
      else if ¬ s < e then some false
      else
        match checkedMod (e - s) minp with
        | none => none
        | some r => some (decide (r = 0) && decide (minp ≤ s - c))
  | _, _, _, _, _, _ => some false

/-- FUNDS rule arm of validate_tx: the balance delta is an unsigned
subtraction with no guard in the source, evaluated (short-circuit) only when
the funds floor test passed; an underflow is an arithmetic fault (none). -/
def fundsRule (ctx : Ctx) (proposal_id : Nat) : Option Bool :=
  let funds_key := get_funds_key proposal_id
  let bal_key := balance_key m1t ADDRESS
  let min_funds_parameter :=
    okOpt (readValue decodeAmount ctx get_min_proposal_fund_key ReadType.PRE)
  let pre_balance := okOpt (readValue decodeAmount ctx bal_key ReadType.PRE)
  let post_balance := okOpt (readValue decodeAmount ctx bal_key ReadType.POST)
  let post_funds := okOpt (readValue decodeAmount ctx funds_key ReadType.POST)
  match min_funds_parameter, pre_balance, post_balance, post_funds with
  | some mf, some preb, some postb, some pf =>
      if pf < mf then some false
      else
        match amountSub postb preb with
        | none => none
        | some d => some (decide (d = pf))
  | _, _, _, _ => some false

/-- AUTHOR rule arm of validate_tx. -/
def authorRule (ctx : Ctx) (verifiers : List Address) (proposal_id : Nat) :
    Option Bool :=
  let author_key := get_author_key proposal_id
  let author := okOpt (readValue decodeAddress ctx author_key ReadType.POST)
  let has_pre_author := okOpt (ctx.has_key_pre author_key)
  match has_pre_author, author with
  | some hpa, some a => some (!hpa && decide (a ∈ verifiers))
  | _, _ => some false

/-- COUNTER rule arm of validate_tx: the successor of the pre counter is a
u64 addition whose overflow is an arithmetic fault. -/
def counterRule (ctx : Ctx) : Option Bool :=
  let pre_counter := okOpt (readValue decodeU64 ctx get_counter_key ReadType.PRE)
  let post_counter := okOpt (readValue decodeU64 ctx get_counter_key ReadType.POST)
  match pre_counter, post_counter with
  | some p, some q =>
      match addU64 p 1 with
      | none => none
      | some s => some (decide (s = q))
  | _, _ => some false

/-- BALANCE rule arm of validate_tx: the delta subtraction is evaluated only
after the strict growth test, so it cannot underflow. -/
def balanceRule (ctx : Ctx) : Option Bool :=
  let bal_key := balance_key m1t ADDRESS
  let min_funds_parameter :=
    okOpt (readValue decodeAmount ctx get_min_proposal_fund_key ReadType.PRE)
  let pre_balance := okOpt (readValue decodeAmount ctx bal_key ReadType.PRE)
  let post_balance := okOpt (readValue decodeAmount ctx bal_key ReadType.POST)
  match min_funds_parameter, pre_balance, post_balance with
  | some mf, some preb, some postb =>
      some (decide (preb < postb) && decide (mf ≤ postb - preb))
  | some mf, none, some postb => some (decide (mf ≤ postb))
  | _, _, _ => some false

/-- Per-key body of the closure inside validate_tx: dispatch on the
classified category and the extracted proposal id, with the same arm order
and the same catch-all false as the source match. -/
def validateKey (ctx : Ctx) (verifiers : List Address) (key : Key) :
    Option Bool :=
  match keyTypeFrom key, get_id key with
  | KeyType.VOTE, some _ => some false
  | KeyType.CONTENT, some proposal_id => contentRule ctx proposal_id
  | KeyType.PROPOSAL_CODE, some proposal_id => proposalCodeRule ctx proposal_id
  | KeyType.GRACE_EPOCH, some proposal_id => graceEpochRule ctx proposal_id
  | KeyType.START_EPOCH, some proposal_id => epochRule ctx proposal_id
  | KeyType.END_EPOCH, some proposal_id => epochRule ctx proposal_id
  | KeyType.FUNDS, some proposal_id => fundsRule ctx proposal_id
  | KeyType.AUTHOR, some proposal_id => authorRule ctx verifiers proposal_id
  | KeyType.COUNTER, _ => counterRule ctx
  | KeyType.BALANCE, _ => balanceRule ctx
  | KeyType.PARAMETER, _ => some false
  | KeyType.UNKNOWN, _ => some false
  | _, _ => some false

/-- Short-circuiting Iterator::all over a list of keys, propagating a fault
(none) of the evaluated element and stopping at the first false. -/
def allOpt : List Key → (Key → Option Bool) → Option Bool
  | [], _ => some true
  | k :: ks, f =>
      match f k with
      | none => none
      | some false => some false
      | some true => allOpt ks f

/-- List membership test (BTreeSet::contains in the source). -/
def containsKey (keys : List Key) (k : Key) : Bool :=
  keys.any (fun x => decide (x = k))

/-- The mandatory proposal-init key set for the given counter value,
translated from the BTreeSet built in is_valid_proposal_init_key_set. -/
def mandatory_keys (counter : Nat) : List Key :=
  [get_counter_key,
   get_content_key counter,
   get_author_key counter,
   get_funds_key counter,
   get_voting_start_epoch_key counter,
   get_voting_end_epoch_key counter]

/-- Shape validator for the proposal-init shape, translated from
is_valid_proposal_init_key_set: read the counter pre-image (failures
absorbed by ok()), then test that the changed keys are a superset of the
mandatory set. -/
def is_valid_proposal_init_key_set (ctx : Ctx) (keys : List Key) : Bool :=
  match okOpt (readValue decodeU64 ctx get_counter_key ReadType.PRE) with
  | none => false
  | some counter =>
      (mandatory_keys counter).all (fun mk => containsKey keys mk)

/-- is_valid_key_set from the source: the proposal-init shape is the single
recognised shape. -/
def is_valid_key_set (ctx : Ctx) (keys : List Key) : Bool :=
  if is_valid_proposal_init_key_set ctx keys then true else false

/-- The rule engine entry point, translated from validate_tx: an early
Ok(false) when the shape validator fails, then the conjunction of the
per-key verdicts.  The value none models a program fault (a Rust panic
inside the iteration); otherwise the result is the returned Rust value. -/
def validate_tx (ctx : Ctx) (keys_changed : List Key)
    (verifiers : List Address) : Option (Except GovError Bool) :=
  if !is_valid_key_set ctx keys_changed then some (Except.ok false)
  else
    match allOpt keys_changed (validateKey ctx verifiers) with
    | none => none
    | some result => some (Except.ok result)

/-- The happy-path store of the specification scenarios: parameters
max_content_length 64, max_proposal_code_size 128, min_proposal_period 3,
min_proposal_fund 100, current epoch 10, pre counter 7, pre balance 0. -/
def ctxHappy : Ctx where
  read_pre k :=
    if k = get_counter_key then Except.ok (some (encodeU64 7))
    else if k = get_max_proposal_content_key then Except.ok (some (encodeU64 64))
    else if k = get_max_proposal_code_size_key then
      Except.ok (some (encodeU64 128))
    else if k = get_min_proposal_period_key then Except.ok (some (encodeU64 3))
    else if k = get_min_proposal_fund_key then Except.ok (some (encodeU64 100))
    else if k = balance_key m1t ADDRESS then Except.ok (some (encodeU64 0))
    else Except.ok none
  read_post k :=
    if k = get_counter_key then Except.ok (some (encodeU64 8))
    else if k = get_content_key 7 then Except.ok (some (List.replicate 32 0))
    else if k = get_author_key 7 then Except.ok (some (3 :: encodeU64 10))
    else if k = get_funds_key 7 then Except.ok (some (encodeU64 150))
    else if k = get_voting_start_epoch_key 7 then
      Except.ok (some (encodeU64 13))
    else if k = get_voting_end_epoch_key 7 then Except.ok (some (encodeU64 16))
    else if k = balance_key m1t ADDRESS then Except.ok (some (encodeU64 150))
    else Except.ok none
  has_key_pre _ := Except.ok false
  get_block_epoch := Except.ok 10

/-- The changed-key set of the happy-path scenario, in iteration order. -/
def keysHappy : List Key :=
  [get_counter_key, get_content_key 7, get_author_key 7, get_funds_key 7,
   get_voting_start_epoch_key 7, get_voting_end_epoch_key 7]

/-- The verifier set of the happy-path scenario. -/
def verifiersHappy : List Address := [Address.user 10]

/-- The happy-path store with the counter pre-image removed. -/
def ctxNoCounter : Ctx :=
  { ctxHappy with
    read_pre := fun k =>
      if k = get_counter_key then Except.ok none else ctxHappy.read_pre k }

/-- The happy-path store with a pre balance of 200 exceeding the post
balance of 150, making the FUNDS balance delta an unsigned underflow. -/
def ctxUnderflow : Ctx :=
  { ctxHappy with
    read_pre := fun k =>
      if k = balance_key m1t ADDRESS then Except.ok (some (encodeU64 200))
      else ctxHappy.read_pre k }

/-- The happy-path store whose post view fails with a storage error on the
content key. -/
def ctxContentErr : Ctx :=
  { ctxHappy with
    read_post := fun k =>
      if k = get_content_key 7 then Except.error 0 else ctxHappy.read_post k }

/-- A content key whose proposal-id segment is not numeric. -/
def contentKeyNoId : Key :=
  ⟨[DbKeySeg.AddressSeg Address.gov, DbKeySeg.StringSeg "proposal",
    DbKeySeg.StringSeg "x", DbKeySeg.StringSeg "content"]⟩

/-- Keys are equal exactly when their segment lists are. -/
theorem key_eq_iff {k1 k2 : Key} : k1 = k2 ↔ k1.segments = k2.segments := by
  cases k1; cases k2; simp

/-- containsKey agrees with list membership. -/
theorem containsKey_eq_true {keys : List Key} {k : Key} :
    containsKey keys k = true ↔ k ∈ keys := by
  unfold containsKey
  rw [List.any_eq_true]
  constructor
  · rintro ⟨x, hx, hdx⟩
    exact (of_decide_eq_true hdx) ▸ hx
  · intro hk
    exact ⟨k, hk, by simp⟩

/-- is_valid_key_set coincides with the proposal-init shape validator. -/
theorem is_valid_key_set_eq (ctx : Ctx) (keys : List Key) :
    is_valid_key_set ctx keys = is_valid_proposal_init_key_set ctx keys := by
  unfold is_valid_key_set
  cases h : is_valid_proposal_init_key_set ctx keys <;> simp

/-- A conjunction over keys that evaluates to true evaluates every element
to true. -/
theorem allOpt_forall {l : List Key} {f : Key → Option Bool}
    (h : allOpt l f = some true) : ∀ k ∈ l, f k = some true := by
  induction l with
  | nil => intro k hk; cases hk
  | cons a l ih =>
      intro k hk
      unfold allOpt at h
      cases hfa : f a with
      | none => rw [hfa] at h; cases h
      | some b =>
          cases b with
          | false => rw [hfa] at h; cases h
          | true =>
              rw [hfa] at h
              rcases List.mem_cons.mp hk with rfl | hk2
              · exact hfa
              · exact ih h k hk2

/-- Claim C10: validate_tx never produces the Err variant at its public
entry point: on every input it either faults (none) or returns Ok of a
boolean, so the declared error constructors are unreachable from it. -/
theorem validate_tx_no_error (ctx : Ctx) (keys : List Key)
    (vs : List Address) :
    validate_tx ctx keys vs = none ∨
      ∃ b, validate_tx ctx keys vs = some (Except.ok b) := by
  unfold validate_tx
  cases hb : is_valid_key_set ctx keys with
  | false => exact Or.inr ⟨false, rfl⟩
  | true =>
      cases hall : allOpt keys (validateKey ctx vs) with
      | none => exact Or.inl rfl
      | some r => exact Or.inr ⟨r, rfl⟩

/-- Claim C5: whenever the changed-key set does not contain the counter key,
validate_tx returns the false verdict, for any storage context and any
verifier set. -/
theorem validate_tx_false_without_counter (ctx : Ctx) (keys : List Key)
    (vs : List Address) (h : get_counter_key ∉ keys) :
    validate_tx ctx keys vs = some (Except.ok false) := by
  have hc : containsKey keys get_counter_key = false := by
    cases hcc : containsKey keys get_counter_key with
    | false => rfl
    | true => exact absurd (containsKey_eq_true.mp hcc) h
  have hshape : is_valid_proposal_init_key_set ctx keys = false := by
    unfold is_valid_proposal_init_key_set
    cases hr : okOpt (readValue decodeU64 ctx get_counter_key ReadType.PRE) with
    | none => rfl
    | some c => simp [mandatory_keys, hc]
  unfold validate_tx
  rw [is_valid_key_set_eq, hshape]
  rfl

/-- Witness for claim C5 at a concrete changed-key set without the counter
key. -/
theorem validate_tx_false_without_counter_witness :
    get_counter_key ∉ [get_content_key 0] ∧
    validate_tx ctxHappy [get_content_key 0] [] = some (Except.ok false) :=
  ⟨by decide,
   validate_tx_false_without_counter ctxHappy [get_content_key 0] []
     (by decide)⟩

/-- Counterexample for claim C3: at a store whose counter key has no
pre-image, validate_tx returns the plain boolean verdict Ok false instead of
surfacing any predicate-boundary error to the host. -/
theorem missing_counter_no_error_surfaced :
    ctxNoCounter.read_pre get_counter_key = Except.ok none ∧
    validate_tx ctxNoCounter keysHappy verifiersHappy =
      some (Except.ok false) := by
  exact ⟨by decide, by decide⟩

/-- Claim C3 as amended: when the counter pre-image cannot be read at the
entry shape check, the failure is absorbed and validate_tx returns Ok false;
no error reaches the host. -/
theorem missing_counter_absorbed (ctx : Ctx) (keys : List Key)
    (vs : List Address)
    (h : okOpt (readValue decodeU64 ctx get_counter_key ReadType.PRE) = none) :
    validate_tx ctx keys vs = some (Except.ok false) := by
  have hshape : is_valid_proposal_init_key_set ctx keys = false := by
    unfold is_valid_proposal_init_key_set
    rw [h]
  unfold validate_tx
  rw [is_valid_key_set_eq, hshape]
  rfl

/-- Witness for the amended claim C3. -/
theorem missing_counter_absorbed_witness :
    okOpt (readValue decodeU64 ctxNoCounter get_counter_key ReadType.PRE) = none ∧
    validate_tx ctxNoCounter [] [] = some (Except.ok false) :=
  ⟨by decide, missing_counter_absorbed ctxNoCounter [] [] (by decide)⟩

/-- Claim C4: the shape validator accepts exactly when the counter pre-image
reads and decodes to some id and the changed keys form a superset of the
mandatory set for that id; and a false shape verdict makes validate_tx
return Ok false immediately. -/
theorem shape_validator_correct (ctx : Ctx) (keys : List Key)
    (vs : List Address) :
    (is_valid_proposal_init_key_set ctx keys = true ↔
      ∃ id, okOpt (readValue decodeU64 ctx get_counter_key ReadType.PRE) =
          some id ∧ ∀ mk ∈ mandatory_keys id, mk ∈ keys) ∧
    (is_valid_proposal_init_key_set ctx keys = false →
      validate_tx ctx keys vs = some (Except.ok false)) := by
  constructor
  · unfold is_valid_proposal_init_key_set
    cases hr : okOpt (readValue decodeU64 ctx get_counter_key ReadType.PRE) with
    | none => simp
    | some c =>
        simp only [Option.some.injEq]
        constructor
        · intro hall
          refine ⟨c, rfl, fun mk hmk => ?_⟩
          exact containsKey_eq_true.mp (List.all_eq_true.mp hall mk hmk)
        · rintro ⟨id, rfl, hmem⟩
          exact List.all_eq_true.mpr
            (fun mk hmk => containsKey_eq_true.mpr (hmem mk hmk))
  · intro hf
    unfold validate_tx
    rw [is_valid_key_set_eq, hf]
    rfl

/-- Witness for claim C4 at an empty changed-key set. -/
theorem shape_validator_correct_witness :
    is_valid_proposal_init_key_set ctxHappy [] = false ∧
    validate_tx ctxHappy [] [] = some (Except.ok false) :=
  ⟨by decide, (shape_validator_correct ctxHappy [] []).2 (by decide)⟩

/-- Claim C9: a key classified CONTENT whose extracted proposal id is none
receives the per-key verdict false for every storage context and verifier
set, through the catch-all arm (no storage access is made, so the verdict is
independent of the context). -/
theorem content_without_id_rejected (ctx : Ctx) (vs : List Address) (k : Key)
    (h1 : keyTypeFrom k = KeyType.CONTENT) (h2 : get_id k = none) :
    validateKey ctx vs k = some false := by
  unfold validateKey
  rw [h1, h2]

/-- Witness for claim C9 at a content key with a non-numeric id segment. -/
theorem content_without_id_rejected_witness :
    keyTypeFrom contentKeyNoId = KeyType.CONTENT ∧
    get_id contentKeyNoId = none ∧
    validateKey ctxHappy [] contentKeyNoId = some false :=
  ⟨by decide, by decide,
   content_without_id_rejected ctxHappy [] contentKeyNoId (by decide)
     (by decide)⟩

/-- A byte list of bytes below 256 has a little-endian value below the
corresponding power of 256. -/
theorem leValue_lt {bs : List Nat} (h : ∀ b ∈ bs, b < 256) :
    leValue bs < 256 ^ bs.length := by
  induction bs with
  | nil => simp [leValue]
  | cons b rest ih =>
      have hb : b < 256 := h b (List.mem_cons_self b rest)
      have hr : leValue rest < 256 ^ rest.length :=
        ih (fun x hx => h x (List.mem_cons_of_mem b hx))
      simp only [leValue, List.length_cons, pow_succ]
      nlinarith

/-- A decoded u64 is below 2 to the 64. -/
theorem decodeU64_lt {bs : List Nat} {v : Nat} (h : decodeU64 bs = some v) :
    v < 2 ^ 64 := by
  unfold decodeU64 at h
  by_cases hc : bs.length = 8 ∧ ∀ b ∈ bs, b < 256
  · rw [if_pos hc] at h
    have hv : v = leValue bs := (Option.some.inj h).symm
    have := leValue_lt hc.2
    rw [hc.1] at this
    rw [hv]
    calc leValue bs < 256 ^ 8 := this
      _ = 2 ^ 64 := by norm_num
  · rw [if_neg hc] at h
    cases h

/-- A successful typed read yields a value some byte list decodes to. -/
theorem okOpt_read_some {a : Type} {dec : List Nat → Option a} {ctx : Ctx}
    {k : Key} {rt : ReadType} {v : a}
    (h : okOpt (readValue dec ctx k rt) = some v) : ∃ bs, dec bs = some v := by
  unfold readValue at h
  cases rt <;> simp only at h
  case PRE =>
    cases hst : ctx.read_pre k with
    | error e => rw [hst] at h; cases h
    | ok ov =>
        rw [hst] at h
        cases ov with
        | none => cases h
        | some bs =>
            cases hd : dec bs with
            | none =>
                simp only [hd, okOpt] at h
                exact Option.noConfusion h
            | some w =>
                simp [hd, okOpt] at h
                exact ⟨bs, by rw [hd, h]⟩
  case POST =>
    cases hst : ctx.read_post k with
    | error e => rw [hst] at h; cases h
    | ok ov =>
        rw [hst] at h
        cases ov with
        | none => cases h
        | some bs =>
            cases hd : dec bs with
            | none =>
                simp only [hd, okOpt] at h
                exact Option.noConfusion h
            | some w =>
                simp [hd, okOpt] at h
                exact ⟨bs, by rw [hd, h]⟩

/-- A u64 value obtained through the typed reader is below 2 to the 64. -/
theorem okOpt_read_u64_lt {ctx : Ctx} {k : Key} {rt : ReadType} {v : Nat}
    (h : okOpt (readValue decodeU64 ctx k rt) = some v) : v < 2 ^ 64 := by
  rcases okOpt_read_some h with ⟨bs, hbs⟩
  exact decodeU64_lt hbs

/-- The COUNTER arm evaluates to true exactly when both counter images
decode and the post value is the successor of the pre value. -/
theorem counterRule_eq_true_iff (ctx : Ctx) :
    counterRule ctx = some true ↔
      ∃ p, okOpt (readValue decodeU64 ctx get_counter_key ReadType.PRE) =
          some p ∧
        okOpt (readValue decodeU64 ctx get_counter_key ReadType.POST) =
          some (p + 1) := by
  cases hp : okOpt (readValue decodeU64 ctx get_counter_key ReadType.PRE) with
  | none =>
      cases hq : okOpt (readValue decodeU64 ctx get_counter_key
          ReadType.POST) with
      | none =>
          have hred : counterRule ctx = some false := by
            unfold counterRule; rw [hp, hq]
          rw [hred]; simp
      | some q =>
          have hred : counterRule ctx = some false := by
            unfold counterRule; rw [hp, hq]
          rw [hred]; simp
  | some p =>
      cases hq : okOpt (readValue decodeU64 ctx get_counter_key
          ReadType.POST) with
      | none =>
          have hred : counterRule ctx = some false := by
            unfold counterRule; rw [hp, hq]
          rw [hred]; simp
      | some q =>
          have hqlt : q < 2 ^ 64 := okOpt_read_u64_lt hq
          have hred : counterRule ctx =
              (match addU64 p 1 with
               | none => none
               | some s => some (decide (s = q))) := by
            unfold counterRule; rw [hp, hq]
          rw [hred]
          unfold addU64
          by_cases hlt : p + 1 < 2 ^ 64
          · rw [if_pos hlt]
            simp only [Option.some.injEq, decide_eq_true_eq]
            constructor
            · intro h1
              exact ⟨p, rfl, by omega⟩
            · rintro ⟨p2, hp2, hq2⟩
              omega
          · rw [if_neg hlt]
            constructor
            · intro ht; exact Option.noConfusion ht
            · rintro ⟨p2, hp2, hq2⟩
              obtain rfl : p = p2 := Option.some.inj hp2
              have hq1 : q = p + 1 := Option.some.inj hq2
              exfalso
              omega

/-- Claim C6: the COUNTER rule returns true exactly when the pre and post
counter images decode to u64 values with the post equal to the pre plus one;
consequently every accepted transaction increments the counter by one. -/
theorem counter_rule_correct :
    (∀ (ctx : Ctx) (vs : List Address) (k : Key),
      keyTypeFrom k = KeyType.COUNTER →
        (validateKey ctx vs k = some true ↔
          ∃ p, okOpt (readValue decodeU64 ctx get_counter_key ReadType.PRE) =
              some p ∧
            okOpt (readValue decodeU64 ctx get_counter_key ReadType.POST) =
              some (p + 1))) ∧
    (∀ (ctx : Ctx) (keys : List Key) (vs : List Address),
      validate_tx ctx keys vs = some (Except.ok true) →
        ∃ p, okOpt (readValue decodeU64 ctx get_counter_key ReadType.PRE) =
            some p ∧
          okOpt (readValue decodeU64 ctx get_counter_key ReadType.POST) =
            some (p + 1)) := by
  have harm : ∀ (ctx : Ctx) (vs : List Address) (k : Key),
      keyTypeFrom k = KeyType.COUNTER →
        validateKey ctx vs k = counterRule ctx := by
    intro ctx vs k hk
    unfold validateKey
    rw [hk]
  constructor
  · intro ctx vs k hk
    rw [harm ctx vs k hk]
    exact counterRule_eq_true_iff ctx
  · intro ctx keys vs hacc
    unfold validate_tx at hacc
    rw [is_valid_key_set_eq] at hacc
    cases hshape : is_valid_proposal_init_key_set ctx keys with
    | false =>
        rw [hshape] at hacc
        cases Except.ok.inj (Option.some.inj hacc)
    | true =>
        rw [hshape] at hacc
        cases hall : allOpt keys (validateKey ctx vs) with
        | none => rw [hall] at hacc; cases hacc
        | some r =>
            rw [hall] at hacc
            have hr : r = true := Except.ok.inj (Option.some.inj hacc)
            subst hr
            have hmem : get_counter_key ∈ keys := by
              unfold is_valid_proposal_init_key_set at hshape
              cases hrd : okOpt
                  (readValue decodeU64 ctx get_counter_key ReadType.PRE) with
              | none => rw [hrd] at hshape; cases hshape
              | some c =>
                  rw [hrd] at hshape
                  exact containsKey_eq_true.mp
                    (List.all_eq_true.mp hshape get_counter_key
                      (by simp [mandatory_keys]))
            have hck : keyTypeFrom get_counter_key = KeyType.COUNTER := by
              decide
            have := allOpt_forall hall get_counter_key hmem
            rw [harm ctx vs get_counter_key hck] at this
            exact (counterRule_eq_true_iff ctx).mp this

/-- Witness for claim C6: the happy-path scenario is accepted and indeed
has post counter 8 equal to pre counter 7 plus one. -/
theorem counter_rule_correct_witness :
    ∃ p, okOpt (readValue decodeU64 ctxHappy get_counter_key ReadType.PRE) =
        some p ∧
      okOpt (readValue decodeU64 ctxHappy get_counter_key ReadType.POST) =
        some (p + 1) :=
  counter_rule_correct.2 ctxHappy keysHappy verifiersHappy (by decide)

/-- Evidence for claim C1 (a defect): in a store where every FUNDS-rule read
succeeds but the governance balance decreased (pre 200, post 150), the
unguarded unsigned subtraction in the FUNDS arm underflows, so the rule and
the whole predicate fault instead of returning false. -/
theorem funds_rule_underflow_fault :
    okOpt (readValue decodeAmount ctxUnderflow (balance_key m1t ADDRESS)
        ReadType.PRE) = some 200 ∧
    okOpt (readValue decodeAmount ctxUnderflow (balance_key m1t ADDRESS)
        ReadType.POST) = some 150 ∧
    okOpt (readValue decodeAmount ctxUnderflow (get_funds_key 7) ReadType.POST) =
      some 150 ∧
    okOpt (readValue decodeAmount ctxUnderflow get_min_proposal_fund_key
        ReadType.PRE) = some 100 ∧
    fundsRule ctxUnderflow 7 = none ∧
    validate_tx ctxUnderflow keysHappy verifiersHappy = none :=
  ⟨by decide, by decide, by decide, by decide, by decide, by decide⟩

/-- Evidence for claim C2 (a defect): a storage error on the post read of
the content key is not absorbed as a local false; the bare unwrap in the
CONTENT arm makes the rule and the whole predicate fault. -/
theorem content_rule_storage_error_fault :
    ctxContentErr.read_post (get_content_key 7) = Except.error 0 ∧
    contentRule ctxContentErr 7 = none ∧
    validate_tx ctxContentErr keysHappy verifiersHappy = none :=
  ⟨by decide, by decide, by decide⟩

/-- The START_EPOCH and END_EPOCH arm evaluates to true exactly when all its
reads succeed, neither epoch key has a pre-image, start is before end, the
window length is divisible by the minimum period, and start is at least the
minimum period after the current epoch. -/
theorem epochRule_eq_true_iff (ctx : Ctx) (pid : Nat) :
    epochRule ctx pid = some true ↔
      (okOpt (ctx.has_key_pre (get_voting_start_epoch_key pid)) =
          some false ∧
       okOpt (ctx.has_key_pre (get_voting_end_epoch_key pid)) = some false ∧
       ∃ minp, okOpt (readValue decodeU64 ctx get_min_proposal_period_key
           ReadType.PRE) = some minp ∧
       ∃ s, okOpt (readValue decodeU64 ctx (get_voting_start_epoch_key pid)
           ReadType.POST) = some s ∧
       ∃ e, okOpt (readValue decodeU64 ctx (get_voting_end_epoch_key pid)
           ReadType.POST) = some e ∧
       ∃ c, okOpt ctx.get_block_epoch = some c ∧
         (s < e ∧ minp ∣ (e - s) ∧ c < s ∧ minp ≤ s - c)) := by
  cases h1 : okOpt (ctx.has_key_pre (get_voting_start_epoch_key pid)) with
  | none =>
      have hred : epochRule ctx pid = some false := by
        simp only [epochRule]; rw [h1]
      rw [hred]; simp
  | some hps =>
  cases h2 : okOpt (ctx.has_key_pre (get_voting_end_epoch_key pid)) with
  | none =>
      have hred : epochRule ctx pid = some false := by
        simp only [epochRule]; rw [h1, h2]
      rw [hred]; simp
  | some hpe =>
  cases h3 : okOpt (readValue decodeU64 ctx get_min_proposal_period_key
      ReadType.PRE) with
  | none =>
      have hred : epochRule ctx pid = some false := by
        simp only [epochRule]; rw [h1, h2, h3]
      rw [hred]; simp
  | some minp =>
  cases h4 : okOpt (readValue decodeU64 ctx (get_voting_start_epoch_key pid)
      ReadType.POST) with
  | none =>
      have hred : epochRule ctx pid = some false := by
        simp only [epochRule]; rw [h1, h2, h3, h4]
      rw [hred]; simp
  | some s =>
  cases h5 : okOpt (readValue decodeU64 ctx (get_voting_end_epoch_key pid)
      ReadType.POST) with
  | none =>
      have hred : epochRule ctx pid = some false := by
        simp only [epochRule]; rw [h1, h2, h3, h4, h5]
      rw [hred]; simp
  | some e =>
  cases h6 : okOpt ctx.get_block_epoch with
  | none =>
      have hred : epochRule ctx pid = some false := by
        simp only [epochRule]; rw [h1, h2, h3, h4, h5, h6]
      rw [hred]; simp
  | some c =>
  have hred : epochRule ctx pid =
      (if e ≤ s ∨ s ≤ c then some false
       else if hps then some false
       else if hpe then some false
       else if ¬ s < e then some false
       else
         match checkedMod (e - s) minp with
         | none => none
         | some r => some (decide (r = 0) && decide (minp ≤ s - c))) := by
    simp only [epochRule]; rw [h1, h2, h3, h4, h5, h6]
  rw [hred]
  simp only [Option.some.injEq, exists_eq_left']
  by_cases hg : e ≤ s ∨ s ≤ c
  · rw [if_pos hg]
    constructor
    · intro ht; exact absurd ht (by simp)
    · rintro ⟨h7, h8, hlt, hdvd, hcs, hge⟩
      exfalso; rcases hg with hg | hg <;> omega
  · rw [if_neg hg]
    push_neg at hg
    obtain ⟨hse, hcs⟩ := hg
    cases hps with
    | true => simp
    | false =>
    cases hpe with
    | true => simp
    | false =>
    rw [if_neg (not_not_intro hse)]
    unfold checkedMod
    by_cases hm : minp = 0
    · rw [if_pos hm]
      constructor
      · intro ht; exact Option.noConfusion ht
      · rintro ⟨h7, h8, hlt, hdvd, h9, hge⟩
        subst hm
        rw [zero_dvd_iff] at hdvd
        exfalso; omega
    · rw [if_neg hm]
      constructor
      · intro ht
        have hb : (decide ((e - s) % minp = 0) &&
            decide (minp ≤ s - c)) = true := Option.some.inj ht
        simp only [Bool.and_eq_true, decide_eq_true_eq] at hb
        exact ⟨rfl, rfl, hse, Nat.dvd_of_mod_eq_zero hb.1, hcs, hb.2⟩
      · rintro ⟨h7, h8, hlt, hdvd, h9, hge⟩
        have hmod : (e - s) % minp = 0 := Nat.mod_eq_zero_of_dvd hdvd
        simp [hmod, hge]

/-- Claim C7: a key classified START_EPOCH or END_EPOCH with an extracted
proposal id receives the per-key verdict true exactly when all required
reads succeed, neither epoch key has a pre-image, start is before end, the
window length is divisible by the minimum proposal period, and the start is
at least the minimum period beyond the current epoch (strict excess of the
start over the current epoch is established before the subtraction). -/
theorem epoch_rule_correct (ctx : Ctx) (vs : List Address) (k : Key)
    (pid : Nat)
    (hk : keyTypeFrom k = KeyType.START_EPOCH ∨
      keyTypeFrom k = KeyType.END_EPOCH)
    (hid : get_id k = some pid) :
    validateKey ctx vs k = some true ↔
      (okOpt (ctx.has_key_pre (get_voting_start_epoch_key pid)) =
          some false ∧
       okOpt (ctx.has_key_pre (get_voting_end_epoch_key pid)) = some false ∧
       ∃ minp, okOpt (readValue decodeU64 ctx get_min_proposal_period_key
           ReadType.PRE) = some minp ∧
       ∃ s, okOpt (readValue decodeU64 ctx (get_voting_start_epoch_key pid)
           ReadType.POST) = some s ∧
       ∃ e, okOpt (readValue decodeU64 ctx (get_voting_end_epoch_key pid)
           ReadType.POST) = some e ∧
       ∃ c, okOpt ctx.get_block_epoch = some c ∧
         (s < e ∧ minp ∣ (e - s) ∧ c < s ∧ minp ≤ s - c)) := by
  have harm : validateKey ctx vs k = epochRule ctx pid := by
    unfold validateKey
    rcases hk with hk | hk <;> rw [hk, hid]
  rw [harm]
  exact epochRule_eq_true_iff ctx pid

/-- Witness for claim C7 at the start-epoch key of the happy-path scenario
(minimum period 3, start 13, end 16, current epoch 10). -/
theorem epoch_rule_correct_witness :
    validateKey ctxHappy [] (get_voting_start_epoch_key 7) = some true ↔
      (okOpt (ctxHappy.has_key_pre (get_voting_start_epoch_key 7)) =
          some false ∧
       okOpt (ctxHappy.has_key_pre (get_voting_end_epoch_key 7)) =
        some false ∧
       ∃ minp, okOpt (readValue decodeU64 ctxHappy
           get_min_proposal_period_key ReadType.PRE) = some minp ∧
       ∃ s, okOpt (readValue decodeU64 ctxHappy
           (get_voting_start_epoch_key 7) ReadType.POST) = some s ∧
       ∃ e, okOpt (readValue decodeU64 ctxHappy
           (get_voting_end_epoch_key 7) ReadType.POST) = some e ∧
       ∃ c, okOpt ctxHappy.get_block_epoch = some c ∧
         (s < e ∧ minp ∣ (e - s) ∧ c < s ∧ minp ≤ s - c)) :=
  epoch_rule_correct ctxHappy [] (get_voting_start_epoch_key 7) 7
    (Or.inl (by decide)) (by decide)

/-- A key passing a per-proposal field test has the four-segment
GOV / "proposal" / id / field shape. -/
theorem field_key_shape {field : String} {k : Key}
    (h : is_proposal_field_key field k = true) :
    ∃ s2, k.segments = [DbKeySeg.AddressSeg Address.gov,
      DbKeySeg.StringSeg "proposal", s2, DbKeySeg.StringSeg field] := by
  unfold is_proposal_field_key at h
  split at h
  · rename_i a p s2 f heq
    simp only [Bool.and_eq_true, decide_eq_true_eq] at h
    obtain ⟨⟨rfl, rfl⟩, rfl⟩ := h
    exact ⟨s2, heq⟩
  · exact Bool.noConfusion h

/-- A per-proposal field key is not the counter key. -/
theorem field_key_not_counter {field : String} {k : Key}
    (h : is_proposal_field_key field k = true) : is_counter_key k = false := by
  obtain ⟨s2, hseg⟩ := field_key_shape h
  simp [is_counter_key, get_counter_key, key_eq_iff, hseg]

/-- A per-proposal field key is not a native-currency balance key. -/
theorem field_key_not_token_balance {field : String} {k : Key}
    (h : is_proposal_field_key field k = true) :
    token_is_balance_key m1t k = none := by
  obtain ⟨s2, hseg⟩ := field_key_shape h
  unfold token_is_balance_key
  rw [hseg]
  rcases s2 with a | str <;> rfl

/-- A protocol parameter key is not a native-currency balance key. -/
theorem parameter_key_not_token_balance {k : Key}
    (h : is_parameter_key k = true) : token_is_balance_key m1t k = none := by
  unfold is_parameter_key at h
  simp only [Bool.or_eq_true, decide_eq_true_eq] at h
  rcases h with ((h | h) | h) | h <;> subst h <;> rfl

/-- Claim C8: the classifier is total (it is a function into the twelve
categories) and agrees on every key with the first-match classifier that
tries the category tests in the order the specification lists them; the
category tests are pairwise disjoint, so the first matching test determines
the category regardless of the order in which the chain tries them. -/
theorem classifier_first_match_spec_order (k : Key) :
    keyTypeFrom k = classifySpecOrder k := by
  unfold keyTypeFrom classifySpecOrder
  by_cases h1 : is_vote_key k = true
  · simp [h1, field_key_not_counter h1]
  · by_cases h2 : is_content_key k = true
    · simp [h1, h2, field_key_not_counter h2]
    · by_cases h3 : is_proposal_code_key k = true
      · simp [h1, h2, h3, field_key_not_counter h3]
      · by_cases h4 : is_grace_epoch_key k = true
        · simp [h1, h2, h3, h4, field_key_not_counter h4]
        · by_cases h5 : is_start_epoch_key k = true
          · simp [h1, h2, h3, h4, h5, field_key_not_counter h5]
          · by_cases h6 : is_end_epoch_key k = true
            · simp [h1, h2, h3, h4, h5, h6, field_key_not_counter h6]
            · by_cases h7 : is_gov_balance_key k = true
              · simp [h1, h2, h3, h4, h5, h6, h7, field_key_not_counter h7]
              · by_cases h8 : is_author_key k = true
                · simp [h1, h2, h3, h4, h5, h6, h7, h8,
                    field_key_not_counter h8, field_key_not_token_balance h8]
                · by_cases h9 : is_counter_key k = true
                  · simp [h1, h2, h3, h4, h5, h6, h7, h8, h9]
                  · by_cases h10 : is_parameter_key k = true
                    · simp [h1, h2, h3, h4, h5, h6, h7, h8, h9, h10,
                        parameter_key_not_token_balance h10]
                    · by_cases h11 : (token_is_balance_key m1t k).isSome = true
                      · simp [h1, h2, h3, h4, h5, h6, h7, h8, h9, h10, h11]
                      · simp [h1, h2, h3, h4, h5, h6, h7, h8, h9, h10, h11]
